import Mathlib

/-!
Verification development for the repository intro_deeplearn, a single
notebook (mnist_pytorch_lightning) that trains a two-layer perceptron on
MNIST with pytorch-lightning.  The model of the notebook, its data split, dataloader
batching, configuration values and top-level cell sequence are embedded
shallowly below; framework behaviour that the notebook merely invokes
(checkpointing, metric aggregation) is modelled from the specification and
marked as such in the corresponding doc comments.
-/

namespace Spec2Proof

/-! ### Vectors, layers and the model (notebook cell: model definition) -/

/-- F.relu applied to one scalar. -/
def relu (x : ℚ) : ℚ := max x 0

/-- F.relu applied elementwise to a vector. -/
def reluVec (v : List ℚ) : List ℚ := v.map relu

/-- Dot product of two vectors (a row of a weight matrix with the input). -/
def dot (w x : List ℚ) : ℚ := (List.zipWith (fun a b => a * b) w x).sum

/-- nn.Linear: a weight matrix (one row per output feature) and a bias vector. -/
structure Linear where
  weight : List (List ℚ)
  bias : List ℚ

/-- Applying a linear layer: each output coordinate is the dot product of the
corresponding weight row with the input, plus the bias entry. -/
def Linear.apply (l : Linear) (x : List ℚ) : List ℚ :=
  List.zipWith (fun w b => dot w x + b) l.weight l.bias

/-- The layer has nOut weight rows of length nIn and nOut bias entries,
exactly as constructed by nn.Linear(nIn, nOut). -/
def Linear.wellFormed (l : Linear) (nIn nOut : Nat) : Prop :=
  l.weight.length = nOut ∧ l.bias.length = nOut ∧ ∀ w ∈ l.weight, w.length = nIn

/-- nn.Dropout at a given draw of the random mask: elementwise product of the
mask with the input (a kept coordinate has mask entry 1/(1-p) in training,
1 in eval mode; a dropped one has 0). -/
def dropoutApply (mask v : List ℚ) : List ℚ := List.zipWith (fun m a => m * a) mask v

/-- One input sample: channels, each a list of rows of pixels. -/
abbrev Image := List (List (List ℚ))

/-- nn.Flatten on one sample: concatenate all channels and rows into one vector. -/
def flattenImage (x : Image) : List ℚ := (x.map List.flatten).flatten

/-- The MNISTModel class: fields layer_1, layer_2 and the dropout rate
(nn.Dropout(0.15)); self.flatten carries no parameters. -/
structure MNISTModel where
  layer_1 : Linear
  layer_2 : Linear
  dropoutRate : ℚ

/-- Shapes fixed by MNISTModel.__init__:
nn.Linear(1 * 28 * 28, 512), nn.Linear(512, 10), nn.Dropout(0.15). -/
def MNISTModel.initShapes (m : MNISTModel) : Prop :=
  m.layer_1.wellFormed (1 * 28 * 28) 512 ∧ m.layer_2.wellFormed 512 10 ∧
    m.dropoutRate = 15 / 100

/-- MNISTModel.forward on one sample, at a given dropout mask: flatten, first
dense layer, ReLU, dropout, second dense layer; the result is returned with no
further normalization. -/
def MNISTModel.forward (m : MNISTModel) (mask : List ℚ) (x : Image) : List ℚ :=
  m.layer_2.apply (dropoutApply mask (reluVec (m.layer_1.apply (flattenImage x))))

/-- A linear layer with all weights and biases zero, used as a concrete instance. -/
def zeroLinear (nIn nOut : Nat) : Linear :=
  ⟨List.replicate nOut (List.replicate nIn 0), List.replicate nOut 0⟩

/-- A concrete MNISTModel with the notebook shapes and zero parameters. -/
def zeroModel : MNISTModel := ⟨zeroLinear (1 * 28 * 28) 512, zeroLinear 512 10, 15 / 100⟩

/-- A concrete all-zero input sample of MNIST shape 1 x 28 x 28. -/
def zeroImage : Image := List.replicate 1 (List.replicate 28 (List.replicate 28 0))

/-- A dropout mask keeping all 512 hidden coordinates. -/
def onesMask : List ℚ := List.replicate 512 1

lemma dot_replicate_zero (n : Nat) (v : List ℚ) : dot (List.replicate n 0) v = 0 := by
  induction n generalizing v with
  | zero => simp [dot]
  | succ k ih =>
    cases v with
    | nil => simp [dot]
    | cons a t =>
      simp only [List.replicate_succ, dot, List.zipWith_cons_cons, List.sum_cons, zero_mul,
        zero_add]
      exact ih t

lemma zipWith_replicate_left {α β γ : Type} (f : α → β → γ) (a : α) :
    ∀ (n : Nat) (l : List β), l.length = n →
      List.zipWith f (List.replicate n a) l = l.map (f a) := by
  intro n
  induction n with
  | zero => intro l hl; simp [List.length_eq_zero.mp hl]
  | succ k ih =>
    intro l hl
    cases l with
    | nil => simp at hl
    | cons b t =>
      simp only [List.replicate_succ, List.zipWith_cons_cons, List.map_cons]
      rw [ih t (by simpa using hl)]

lemma zeroLinear_wellFormed (nIn nOut : Nat) : (zeroLinear nIn nOut).wellFormed nIn nOut := by
  refine ⟨by simp [zeroLinear], by simp [zeroLinear], ?_⟩
  intro w hw
  rw [List.eq_of_mem_replicate hw]
  simp

lemma zeroModel_initShapes : zeroModel.initShapes :=
  ⟨zeroLinear_wellFormed _ _, zeroLinear_wellFormed _ _, rfl⟩

lemma zeroLinear_apply (nIn nOut : Nat) (v : List ℚ) :
    (zeroLinear nIn nOut).apply v = List.replicate nOut 0 := by
  unfold zeroLinear Linear.apply
  rw [zipWith_replicate_left _ _ nOut (List.replicate nOut 0) (by simp)]
  simp [dot_replicate_zero]

lemma zeroModel_forward_sum :
    (zeroModel.forward onesMask zeroImage).sum = 0 := by
  have h1 : zeroModel.layer_1.apply (flattenImage zeroImage) = List.replicate 512 0 :=
    zeroLinear_apply _ _ _
  have hrelu : relu 0 = 0 := by simp [relu]
  have h2 : reluVec (List.replicate 512 (0 : ℚ)) = List.replicate 512 0 := by
    unfold reluVec
    rw [List.map_replicate, hrelu]
  have h3 : dropoutApply onesMask (List.replicate 512 0) = List.replicate 512 0 := by
    unfold dropoutApply onesMask
    rw [zipWith_replicate_left _ _ 512 (List.replicate 512 0)
      (List.length_replicate 512 0), List.map_replicate, one_mul]
  show (zeroModel.layer_2.apply (dropoutApply onesMask
      (reluVec (zeroModel.layer_1.apply (flattenImage zeroImage))))).sum = 0
  rw [show zeroModel.layer_1 = zeroLinear (1 * 28 * 28) 512 from rfl] at h1 ⊢
  rw [h1, h2, h3]
  rw [show zeroModel.layer_2 = zeroLinear 512 10 from rfl, zeroLinear_apply]
  simp

lemma length_linear_apply (l : Linear) (nIn nOut : Nat) (h : l.wellFormed nIn nOut)
    (x : List ℚ) : (l.apply x).length = nOut := by
  unfold Linear.apply
  rw [List.length_zipWith, h.1, h.2.1, Nat.min_self]

/-- Claim C1: for every input sample and dropout mask, MNISTModel.forward is
exactly the composition flatten, then the 784-to-512 dense layer, then ReLU,
then dropout at rate 0.15, then the 512-to-10 dense layer, producing ten class
scores per sample; and the scores are unnormalized (no softmax): a concrete
well-formed model produces an output whose entries do not sum to one. -/
theorem forward_is_two_layer_net (m : MNISTModel) (hm : m.initShapes)
    (mask : List ℚ) (x : Image) :
    m.forward mask x
        = m.layer_2.apply (dropoutApply mask (reluVec (m.layer_1.apply (flattenImage x))))
      ∧ (m.forward mask x).length = 10
      ∧ m.layer_1.wellFormed 784 512
      ∧ m.dropoutRate = 15 / 100
      ∧ ∃ (m0 : MNISTModel) (mask0 : List ℚ) (x0 : Image),
          m0.initShapes ∧ (m0.forward mask0 x0).sum ≠ 1 := by
  refine ⟨rfl, ?_, ?_, hm.2.2, zeroModel, onesMask, zeroImage, zeroModel_initShapes, ?_⟩
  · exact length_linear_apply _ _ _ hm.2.1 _
  · have := hm.1
    simpa using this
  · rw [zeroModel_forward_sum]
    norm_num

/-- Witness for C1 at the concrete zero-parameter model, the all-ones dropout
mask and the all-zero 1 x 28 x 28 image. -/
theorem forward_is_two_layer_net_witness :
    zeroModel.initShapes ∧
      (zeroModel.forward onesMask zeroImage
          = zeroModel.layer_2.apply (dropoutApply onesMask
              (reluVec (zeroModel.layer_1.apply (flattenImage zeroImage))))
        ∧ (zeroModel.forward onesMask zeroImage).length = 10
        ∧ zeroModel.layer_1.wellFormed 784 512
        ∧ zeroModel.dropoutRate = 15 / 100
        ∧ ∃ (m0 : MNISTModel) (mask0 : List ℚ) (x0 : Image),
            m0.initShapes ∧ (m0.forward mask0 x0).sum ≠ 1) :=
  ⟨zeroModel_initShapes,
    forward_is_two_layer_net zeroModel zeroModel_initShapes onesMask zeroImage⟩

/-! ### Data preparation (notebook cell: data preparation) -/

/-- One dataset element: an image and its class label. -/
structure MNISTSample where
  image : Image
  label : Nat

/-- A sample is a single-channel 28 x 28 raster with a label in 0..9. -/
def sampleWellFormed (s : MNISTSample) : Prop :=
  s.image.length = 1 ∧ (∀ ch ∈ s.image, ch.length = 28 ∧ ∀ row ∈ ch, row.length = 28)
    ∧ s.label < 10

/-- Identity of a sample on disk: the file it was loaded from (true for the
MNIST train=True file, false for the train=False file) and its index there.
The two files are loaded by separate MNIST(...) calls, so the identities are
disjoint by construction. -/
abbrev SampleId := Bool × Nat

/-- Modelled from the spec: torch.utils.data.random_split(dataset, [n1, n2]),
which is library code not in this repository, draws a random permutation of
the dataset indices and gives the first n1 of them to the first part and the
next n2 to the second.  The drawn permutation is the parameter perm. -/
def random_split (perm : List Nat) (n1 n2 : Nat) : List Nat × List Nat :=
  (perm.take n1, (perm.drop n1).take n2)

/-- Identities of the training partition produced by
random_split(training_data, [55000, 5000]). -/
def trainPartIds (perm : List Nat) : List SampleId :=
  (random_split perm 55000 5000).1.map (fun i => (true, i))

/-- Identities of the validation partition produced by the same split. -/
def valPartIds (perm : List Nat) : List SampleId :=
  (random_split perm 55000 5000).2.map (fun i => (true, i))

/-- Identities of the test partition, loaded separately with train=False. -/
def testPartIds : List SampleId := (List.range 10000).map (fun i => (false, i))

/-- Identities of the full 60000-sample training file. -/
def trainFileIds : List SampleId := (List.range 60000).map (fun i => (true, i))

/-- A concrete well-formed sample. -/
def defaultSample : MNISTSample := ⟨zeroImage, 0⟩

lemma defaultSample_wf : sampleWellFormed defaultSample := by
  refine ⟨by simp [defaultSample, zeroImage], ?_, by norm_num [defaultSample]⟩
  intro ch hch
  have hchr : ch ∈ List.replicate 1 (List.replicate 28 (List.replicate 28 (0 : ℚ))) := hch
  rw [List.eq_of_mem_replicate hchr]
  refine ⟨List.length_replicate _ _, ?_⟩
  intro row hrow
  rw [List.eq_of_mem_replicate hrow]
  exact List.length_replicate _ _

lemma disjoint_tag_false (l1 l2 : List Nat) :
    List.Disjoint (l1.map (fun i => ((true, i) : SampleId)))
      (l2.map (fun i => ((false, i) : SampleId))) := by
  intro x hx hy
  simp only [List.mem_map] at hx hy
  obtain ⟨a, _, ha⟩ := hx
  obtain ⟨b, _, hb⟩ := hy
  have : ((false, b) : SampleId) = (true, a) := hb.trans ha.symm
  simp at this

/-- Claim C2: with perm the permutation drawn by random_split on the
60000-sample training file, the training and validation partitions have sizes
55000 and 5000, are disjoint, and together are a permutation of the training
file; the test partition is disjoint from both; and, when the loaded samples
are single-channel 28 x 28 with labels below 10, every sample referenced by
any partition is such a sample. -/
theorem data_partitions (perm : List Nat) (hp : perm.Perm (List.range 60000))
    (trainSamples testSamples : List MNISTSample)
    (hlt : trainSamples.length = 60000) (hle : testSamples.length = 10000)
    (hwt : ∀ s ∈ trainSamples, sampleWellFormed s)
    (hwe : ∀ s ∈ testSamples, sampleWellFormed s) :
    (trainPartIds perm).length = 55000
      ∧ (valPartIds perm).length = 5000
      ∧ List.Disjoint (trainPartIds perm) (valPartIds perm)
      ∧ (trainPartIds perm ++ valPartIds perm).Perm trainFileIds
      ∧ List.Disjoint (trainPartIds perm) testPartIds
      ∧ List.Disjoint (valPartIds perm) testPartIds
      ∧ (∀ i ∈ trainPartIds perm ++ valPartIds perm,
          sampleWellFormed (trainSamples.getD i.2 defaultSample))
      ∧ (∀ i ∈ testPartIds, sampleWellFormed (testSamples.getD i.2 defaultSample)) := by
  have hlen : perm.length = 60000 := hp.length_eq.trans (List.length_range 60000)
  have hval : (perm.drop 55000).take 5000 = perm.drop 55000 :=
    List.take_of_length_le (by rw [List.length_drop, hlen])
  have hnd : perm.Nodup := hp.nodup_iff.mpr (List.nodup_range 60000)
  have hsplit : List.Disjoint (perm.take 55000) (perm.drop 55000) := by
    have hnd2 : (perm.take 55000 ++ perm.drop 55000).Nodup := by
      rw [List.take_append_drop]; exact hnd
    exact (List.nodup_append.mp hnd2).2.2
  have hcov : (trainPartIds perm ++ valPartIds perm).Perm trainFileIds := by
    unfold trainPartIds valPartIds trainFileIds random_split
    rw [hval, ← List.map_append, List.take_append_drop]
    exact hp.map _
  refine ⟨?_, ?_, ?_, hcov, disjoint_tag_false _ _, disjoint_tag_false _ _, ?_, ?_⟩
  · simp [trainPartIds, random_split, hlen]
  · simp [valPartIds, random_split, hlen]
  · intro x hx hy
    simp only [trainPartIds, valPartIds, random_split, List.mem_map] at hx hy
    obtain ⟨a, ha, hax⟩ := hx
    obtain ⟨b, hb, hbx⟩ := hy
    have hab : a = b := by
      have : ((true, a) : SampleId) = (true, b) := hax.trans hbx.symm
      simpa using this
    exact hsplit ha (hab ▸ List.mem_of_mem_take hb)
  · intro i hi
    have hi2 : i ∈ trainFileIds := hcov.mem_iff.mp hi
    simp only [trainFileIds, List.mem_map, List.mem_range] at hi2
    obtain ⟨j, hj, hji⟩ := hi2
    have hjlt : i.2 < trainSamples.length := by
      rw [hlt, ← hji]; exact hj
    rw [List.getD_eq_getElem _ _ hjlt]
    exact hwt _ (List.getElem_mem hjlt)
  · intro i hi
    simp only [testPartIds, List.mem_map, List.mem_range] at hi
    obtain ⟨j, hj, hji⟩ := hi
    have hjlt : i.2 < testSamples.length := by
      rw [hle, ← hji]; exact hj
    rw [List.getD_eq_getElem _ _ hjlt]
    exact hwe _ (List.getElem_mem hjlt)

/-- Witness for C2 at the identity permutation and replicated well-formed
sample lists of lengths 60000 and 10000. -/
theorem data_partitions_witness :
    (trainPartIds (List.range 60000)).length = 55000
      ∧ (valPartIds (List.range 60000)).length = 5000
      ∧ List.Disjoint (trainPartIds (List.range 60000)) (valPartIds (List.range 60000))
      ∧ (trainPartIds (List.range 60000) ++ valPartIds (List.range 60000)).Perm trainFileIds
      ∧ List.Disjoint (trainPartIds (List.range 60000)) testPartIds
      ∧ List.Disjoint (valPartIds (List.range 60000)) testPartIds
      ∧ (∀ i ∈ trainPartIds (List.range 60000) ++ valPartIds (List.range 60000),
          sampleWellFormed ((List.replicate 60000 defaultSample).getD i.2 defaultSample))
      ∧ (∀ i ∈ testPartIds,
          sampleWellFormed ((List.replicate 10000 defaultSample).getD i.2 defaultSample)) :=
  data_partitions (List.range 60000) (List.Perm.refl _)
    (List.replicate 60000 defaultSample) (List.replicate 10000 defaultSample)
    (List.length_replicate _ _) (List.length_replicate _ _)
    (fun s hs => by rw [List.eq_of_mem_replicate hs]; exact defaultSample_wf)
    (fun s hs => by rw [List.eq_of_mem_replicate hs]; exact defaultSample_wf)

/-! ### Checkpointing and evaluation (notebook cells: training, post training) -/

/-- Modelled from the spec: the parameters of the model after a number of
training epochs, for an abstract per-epoch update.  The optimizer step and
autodiff are framework code, not part of this repository. -/
def paramsAfterEpoch {P : Type} (upd : P → P) (p0 : P) : Nat → P
  | 0 => p0
  | n + 1 => upd (paramsAfterEpoch upd p0 n)

/-- Modelled from the spec: during fit the framework saves, after each of the
maxEpochs training epochs, a checkpoint file holding a serialized snapshot of
the parameters at that point. -/
def fitCheckpoints {P : Type} (upd : P → P) (p0 : P) (maxEpochs : Nat) : List P :=
  (List.range maxEpochs).map (fun e => paramsAfterEpoch upd p0 (e + 1))

/-- The in-memory parameters left when fit returns. -/
def fitFinalParams {P : Type} (upd : P → P) (p0 : P) (maxEpochs : Nat) : P :=
  paramsAfterEpoch upd p0 maxEpochs

/-- Modelled from the spec: trainer.test with ckpt_path=best restores the
parameters it evaluates from the chosen saved checkpoint; it reads nothing but
the checkpoint list, so the in-memory parameters do not enter. -/
def restoredParams {P : Type} (ckpts : List P) (best : Nat) : Option P :=
  ckpts[best]?

/-- Claim C3: the parameters evaluated by trainer.test(ckpt_path=best) are
exactly the serialized snapshot the framework saved after epoch best+1 of fit,
an element of the saved checkpoint list; and there are runs where this
snapshot differs from the in-memory parameters left at the end of training, so
test does not evaluate those. -/
theorem test_evaluates_checkpoint {P : Type} (upd : P → P) (p0 : P) (best : Nat)
    (hb : best < 10) :
    restoredParams (fitCheckpoints upd p0 10) best
        = some (paramsAfterEpoch upd p0 (best + 1))
      ∧ (∀ q, restoredParams (fitCheckpoints upd p0 10) best = some q →
          q ∈ fitCheckpoints upd p0 10)
      ∧ ∃ (f : Nat → Nat) (q0 b : Nat), b < 10 ∧
          restoredParams (fitCheckpoints f q0 10) b ≠ some (fitFinalParams f q0 10) := by
  have h1 : restoredParams (fitCheckpoints upd p0 10) best
      = some (paramsAfterEpoch upd p0 (best + 1)) := by
    unfold restoredParams fitCheckpoints
    rw [List.getElem?_map, List.getElem?_range hb]
    rfl
  refine ⟨h1, ?_, Nat.succ, 0, 0, by norm_num, ?_⟩
  · intro q hq
    rw [h1, Option.some_inj] at hq
    rw [← hq]
    exact List.mem_map.mpr ⟨best, List.mem_range.mpr hb, rfl⟩
  · have h2 : restoredParams (fitCheckpoints Nat.succ 0 10) 0 = some 1 := by
      unfold restoredParams fitCheckpoints
      rw [List.getElem?_map, List.getElem?_range (by norm_num)]
      rfl
    rw [h2]
    intro hcontra
    have h3 : (1 : Nat) = fitFinalParams Nat.succ 0 10 := Option.some_inj.mp hcontra
    have h4 : fitFinalParams Nat.succ 0 10 = 10 := rfl
    omega

/-- Witness for C3 with the successor function as the per-epoch update,
initial parameters 0, and best checkpoint index 3. -/
theorem test_evaluates_checkpoint_witness :
    restoredParams (fitCheckpoints Nat.succ 0 10) 3
        = some (paramsAfterEpoch Nat.succ 0 4)
      ∧ (∀ q, restoredParams (fitCheckpoints Nat.succ 0 10) 3 = some q →
          q ∈ fitCheckpoints Nat.succ 0 10)
      ∧ ∃ (f : Nat → Nat) (q0 b : Nat), b < 10 ∧
          restoredParams (fitCheckpoints f q0 10) b ≠ some (fitFinalParams f q0 10) :=
  test_evaluates_checkpoint Nat.succ 0 3 (by norm_num)

/-! ### The notebook as a sequence of top-level statements -/

/-- The statement forms of the notebook cells, in the order defined below;
constructors callSeedEverything, tryHandle, retryLoop, validateCheck,
syncPrimitive and cancelHandler stand for the statement forms the spec says
the notebook does not contain, so that their absence is a property of the
actual cell list rather than vacuous. -/
inductive Stmt where
  | importLibs
  | defineTransform
  | loadTrainingData
  | loadTestData
  | splitTrainVal
  | makeTrainLoader
  | makeValLoader
  | makeTestLoader
  | defineModelClass
  | initModel
  | initTrainer
  | loadTensorboardExt
  | runTensorboard
  | callFit
  | callTest
  | callSeedEverything
  | tryHandle (tag : Nat)
  | retryLoop (tag : Nat)
  | validateCheck (tag : Nat)
  | syncPrimitive (tag : Nat)
  | cancelHandler (tag : Nat)
  deriving DecidableEq

/-- The notebook top-level statements in source order; the cells are run top
to bottom, each exactly once. -/
def notebookStmts : List Stmt :=
  [.importLibs, .defineTransform, .loadTrainingData, .loadTestData, .splitTrainVal,
   .makeTrainLoader, .makeValLoader, .makeTestLoader, .defineModelClass,
   .initModel, .initTrainer, .loadTensorboardExt, .runTensorboard, .callFit, .callTest]

/-- Claim C4: the notebook is a linear sequence: data loading, model
instantiation, trainer instantiation, the fit call and the test call occur in
that order as a subsequence of the cell list; the fit call strictly precedes
the test call; and no statement is repeated. -/
theorem notebook_linear_order :
    [Stmt.loadTrainingData, Stmt.initModel, Stmt.initTrainer, Stmt.callFit,
        Stmt.callTest].Sublist notebookStmts
      ∧ List.indexOf Stmt.callFit notebookStmts < List.indexOf Stmt.callTest notebookStmts
      ∧ (∀ s ∈ notebookStmts, notebookStmts.count s = 1) := by decide

/-- True for the statement forms that catch errors, retry after them, or
validate against them. -/
def stmtIsGuard : Stmt → Bool
  | .tryHandle _ => true
  | .retryLoop _ => true
  | .validateCheck _ => true
  | _ => false

/-- Effect of one statement under an error oracle eff: a try block swallows
the failure of its body and a retry loop retries until success; every other
statement has the raw effect the framework gives it. -/
def stepEffect {E : Type} (eff : Stmt → Except E Unit) : Stmt → Except E Unit
  | .tryHandle _ => .ok ()
  | .retryLoop _ => .ok ()
  | s => eff s

/-- Running the statements in order: the first failure aborts the run with
that error. -/
def runStmts {E : Type} (eff : Stmt → Except E Unit) : List Stmt → Except E Unit
  | [] => .ok ()
  | s :: rest =>
    match stepEffect eff s with
    | .ok _ => runStmts eff rest
    | .error e => .error e

lemma stepEffect_eq_eff {E : Type} (eff : Stmt → Except E Unit) (t : Stmt)
    (h : stmtIsGuard t = false) : stepEffect eff t = eff t := by
  cases t <;> first
    | rfl
    | simp [stmtIsGuard] at h

lemma runStmts_error_of_first {E : Type} (eff : Stmt → Except E Unit) (e : E) :
    ∀ (pre : List Stmt) (s : Stmt) (post : List Stmt),
      (∀ t ∈ pre, stepEffect eff t = .ok ()) →
      stepEffect eff s = .error e →
      runStmts eff (pre ++ s :: post) = .error e := by
  intro pre
  induction pre with
  | nil =>
    intro s post _ hs
    show runStmts eff (s :: post) = .error e
    unfold runStmts
    rw [hs]
  | cons t ts ih =>
    intro s post hpre hs
    have ht : stepEffect eff t = .ok () := hpre t (List.mem_cons_self _ _)
    show runStmts eff (t :: (ts ++ s :: post)) = .error e
    unfold runStmts
    rw [ht]
    exact ih s post (fun u hu => hpre u (List.mem_cons_of_mem _ hu)) hs

/-- Claim C8: no statement of the notebook catches, retries, or validates;
consequently, whenever the framework raises an error at some statement after
all earlier statements succeeded, the whole run results in exactly that error,
untransformed. -/
theorem errors_propagate_unchanged {E : Type} (eff : Stmt → Except E Unit) (e : E)
    (pre : List Stmt) (s : Stmt) (post : List Stmt)
    (hsplit : notebookStmts = pre ++ s :: post)
    (hpre : ∀ t ∈ pre, eff t = .ok ())
    (hs : eff s = .error e) :
    (∀ t ∈ notebookStmts, stmtIsGuard t = false)
      ∧ runStmts eff notebookStmts = .error e := by
  have hguards : ∀ t ∈ notebookStmts, stmtIsGuard t = false := by decide
  refine ⟨hguards, ?_⟩
  rw [hsplit]
  have hmem : ∀ t, t ∈ pre ∨ t = s → t ∈ notebookStmts := by
    intro t ht
    rw [hsplit]
    rcases ht with h | h
    · exact List.mem_append_left _ h
    · exact List.mem_append_right _ (by rw [h]; exact List.mem_cons_self _ _)
  apply runStmts_error_of_first
  · intro t ht
    rw [stepEffect_eq_eff eff t (hguards t (hmem t (Or.inl ht)))]
    exact hpre t ht
  · rw [stepEffect_eq_eff eff s (hguards s (hmem s (Or.inr rfl)))]
    exact hs

/-- An error oracle under which the fit call fails with error code 3 and every
other statement succeeds. -/
def fitFails : Stmt → Except Nat Unit :=
  fun s => if s = Stmt.callFit then .error 3 else .ok ()

/-- Witness for C8 at the concrete oracle where the fit call raises error 3
after all earlier cells succeeded. -/
theorem errors_propagate_unchanged_witness :
    (∀ t ∈ notebookStmts, stmtIsGuard t = false)
      ∧ runStmts fitFails notebookStmts = .error 3 :=
  errors_propagate_unchanged fitFails 3
    [.importLibs, .defineTransform, .loadTrainingData, .loadTestData, .splitTrainVal,
     .makeTrainLoader, .makeValLoader, .makeTestLoader, .defineModelClass,
     .initModel, .initTrainer, .loadTensorboardExt, .runTensorboard]
    Stmt.callFit [Stmt.callTest] rfl
    (by intro t ht; fin_cases ht <;> rfl) rfl

/-! ### Per-batch metrics and their epoch aggregation
(methods training_step, validation_step, test_step) -/

/-- Index of the first maximal entry of a score vector: the predicted class. -/
def argmaxIdx : List ℚ → Nat
  | [] => 0
  | [_] => 0
  | a :: b :: rest =>
    let j := argmaxIdx (b :: rest)
    if a < (b :: rest).getD j 0 then j + 1 else 0

/-- Number of correctly classified samples in one batch of predictions. -/
def batchCorrect (preds : List (List ℚ)) (labels : List Nat) : Nat :=
  (List.zipWith (fun p y => if argmaxIdx p = y then 1 else 0) preds labels).sum

/-- Modelled from the spec: the state of a torchmetrics Accuracy object
(framework code, not in this repository): the running counts of correct
predictions and of samples seen since the last reset. -/
structure AccState where
  correct : Nat
  total : Nat
  deriving DecidableEq

/-- One update of the running metric with a batch, as done by
train_acc(y_pred, y), val_acc.update(y_pred, y) and test_acc(y_pred, y). -/
def AccState.update (st : AccState) (preds : List (List ℚ)) (labels : List Nat) :
    AccState :=
  ⟨st.correct + batchCorrect preds labels, st.total + labels.length⟩

/-- The scalar value of the running metric. -/
def AccState.value (st : AccState) : ℚ := (st.correct : ℚ) / (st.total : ℚ)

/-- A batch as delivered to a step: the samples and their labels. -/
abbrev MetricBatch := List Image × List Nat

/-- One step, shared shape of training_step, validation_step and test_step:
predict with the model on this batch, compute the loss of this batch with the loss
function L, and update the running accuracy with this predictions and
labels. -/
def stepMetrics (L : List (List ℚ) → List Nat → ℚ) (predict : Image → List ℚ)
    (st : AccState) (b : MetricBatch) : ℚ × AccState :=
  (L (b.1.map predict) b.2, st.update (b.1.map predict) b.2)

/-- Folding one step into the epoch state: record the batch loss, thread the
running accuracy. -/
def epochStep (L : List (List ℚ) → List Nat → ℚ) (predict : Image → List ℚ)
    (acc : List ℚ × AccState) (b : MetricBatch) : List ℚ × AccState :=
  (acc.1 ++ [(stepMetrics L predict acc.2 b).1], (stepMetrics L predict acc.2 b).2)

/-- One epoch: run the step over the batches in order, from a fresh metric
state. -/
def runEpoch (L : List (List ℚ) → List Nat → ℚ) (predict : Image → List ℚ)
    (batches : List MetricBatch) : List ℚ × AccState :=
  batches.foldl (epochStep L predict) ([], ⟨0, 0⟩)

lemma runEpoch_foldl (L : List (List ℚ) → List Nat → ℚ) (predict : Image → List ℚ) :
    ∀ (batches : List MetricBatch) (ls : List ℚ) (st : AccState),
      batches.foldl (epochStep L predict) (ls, st)
        = (ls ++ batches.map (fun b => L (b.1.map predict) b.2),
            ⟨st.correct + (batches.map (fun b => batchCorrect (b.1.map predict) b.2)).sum,
             st.total + (batches.map (fun b => b.2.length)).sum⟩) := by
  intro batches
  induction batches with
  | nil => intro ls st; simp
  | cons b bs ih =>
    intro ls st
    rw [List.foldl_cons]
    show List.foldl (epochStep L predict) (epochStep L predict (ls, st) b) bs = _
    rw [show epochStep L predict (ls, st) b
        = (ls ++ [(stepMetrics L predict st b).1], (stepMetrics L predict st b).2) from rfl]
    rw [ih]
    simp only [stepMetrics, AccState.update, List.map_cons, List.sum_cons]
    refine Prod.ext ?_ ?_
    · simp [List.append_assoc]
    · simp only []
      refine congrArg₂ AccState.mk ?_ ?_ <;> simp [Nat.add_assoc]

/-- Claim C5: each step computes the loss of its own batch and updates the
running accuracy with that batch, and over any epoch these are aggregated over
the batches: the recorded losses are exactly the per-batch values in order,
the final correct count is the sum of the per-batch correct counts, the final
sample count is the sum of the batch sizes, and the epoch accuracy value is
their quotient. -/
theorem metrics_per_batch_aggregated_per_epoch
    (L : List (List ℚ) → List Nat → ℚ) (m : MNISTModel) (mask : List ℚ)
    (batches : List MetricBatch) :
    (runEpoch L (m.forward mask) batches).1
        = batches.map (fun b => L (b.1.map (m.forward mask)) b.2)
      ∧ (runEpoch L (m.forward mask) batches).2.correct
          = (batches.map (fun b => batchCorrect (b.1.map (m.forward mask)) b.2)).sum
      ∧ (runEpoch L (m.forward mask) batches).2.total
          = (batches.map (fun b => b.2.length)).sum
      ∧ (runEpoch L (m.forward mask) batches).2.value
          = ((batches.map (fun b => batchCorrect (b.1.map (m.forward mask)) b.2)).sum : ℚ)
              / ((batches.map (fun b => b.2.length)).sum : ℚ) := by
  have h := runEpoch_foldl L (m.forward mask) batches [] ⟨0, 0⟩
  unfold runEpoch
  rw [h]
  refine ⟨by simp, by simp, by simp, ?_⟩
  simp only [AccState.value]
  push_cast
  simp [List.map_map, Function.comp_def]

/-! ### Configuration values passed by the notebook -/

/-- The DataLoader arguments the notebook touches. -/
structure DataLoaderArgs where
  batch_size : Nat
  shuffle : Bool
  num_workers : Nat
  deriving DecidableEq

/-- Modelled from the spec: the library defaults of torch DataLoader:
batch_size=1, shuffle=False, num_workers=0 (no worker processes). -/
def dataLoaderDefaults : DataLoaderArgs := ⟨1, false, 0⟩

/-- DataLoader(training_data, batch_size=64, shuffle=True, num_workers=4). -/
def trainLoaderArgs : DataLoaderArgs := ⟨64, true, 4⟩

/-- DataLoader(validation_data, batch_size=64, shuffle=False, num_workers=4). -/
def valLoaderArgs : DataLoaderArgs := ⟨64, false, 4⟩

/-- DataLoader(test_data, batch_size=64, shuffle=False, num_workers=4). -/
def testLoaderArgs : DataLoaderArgs := ⟨64, false, 4⟩

/-- The Trainer arguments the notebook touches; none stands for leaving the
framework default in place. -/
structure TrainerArgs where
  max_epochs : Option Nat
  accelerator : Option String
  deriving DecidableEq

/-- Modelled from the spec: a Trainer constructed with all defaults. -/
def trainerDefaults : TrainerArgs := ⟨none, none⟩

/-- Trainer(max_epochs=10, accelerator=gpu). -/
def notebookTrainerArgs : TrainerArgs := ⟨some 10, some "gpu"⟩

/-- Counterexample to claim C6 as stated: the notebook does not leave every
concurrency- or batching-related configuration value at the framework default;
it passes num_workers=4 to each DataLoader where the default is 0, batch
size 64 where the default is 1, and accelerator gpu where the default leaves
the choice to the framework. -/
theorem notebook_overrides_framework_defaults :
    trainLoaderArgs.num_workers = 4 ∧ dataLoaderDefaults.num_workers = 0
      ∧ trainLoaderArgs.num_workers ≠ dataLoaderDefaults.num_workers
      ∧ trainLoaderArgs.batch_size ≠ dataLoaderDefaults.batch_size
      ∧ notebookTrainerArgs.accelerator ≠ trainerDefaults.accelerator := by decide

/-- True for the statement forms that coordinate concurrency or handle
cancellation. -/
def stmtIsConcurrencyCtl : Stmt → Bool
  | .syncPrimitive _ => true
  | .cancelHandler _ => true
  | _ => false

/-- Claim C6 as amended: the notebook contains no synchronization or
cancellation statement of its own, but it does explicitly choose the
concurrency- and batching-related configuration it hands to the framework:
batch size 64 and 4 worker processes on each of the three dataloaders, and
the gpu accelerator on the trainer. -/
theorem no_concurrency_logic_but_explicit_config :
    (∀ s ∈ notebookStmts, stmtIsConcurrencyCtl s = false)
      ∧ trainLoaderArgs = ⟨64, true, 4⟩
      ∧ valLoaderArgs = ⟨64, false, 4⟩
      ∧ testLoaderArgs = ⟨64, false, 4⟩
      ∧ notebookTrainerArgs.accelerator = some "gpu" := by decide

/-! ### Batching by the dataloaders -/

/-- Modelled from the spec: how a torch DataLoader groups a dataset into
batches: successive groups of k samples in order, the last group holding
whatever remains (the notebook leaves drop_last at False). -/
def toBatches {α : Type} (k : Nat) (xs : List α) : List (List α) :=
  if h : k = 0 ∨ xs.length = 0 then []
  else xs.take k :: toBatches k (xs.drop k)
termination_by xs.length
decreasing_by
  push_neg at h
  simp only [List.length_drop]
  exact Nat.sub_lt (Nat.pos_of_ne_zero h.2) (Nat.pos_of_ne_zero h.1)

lemma toBatches_nil {α : Type} (k : Nat) : toBatches k ([] : List α) = [] := by
  unfold toBatches
  exact dif_pos (Or.inr List.length_nil)

lemma toBatches_cons {α : Type} (k : Nat) (xs : List α) (hx : xs ≠ []) (hk : k ≠ 0) :
    toBatches k xs = xs.take k :: toBatches k (xs.drop k) := by
  conv_lhs => unfold toBatches
  rw [dif_neg (fun hc => hc.elim hk (fun h0 => hx (List.eq_nil_of_length_eq_zero h0)))]

lemma toBatches_mem_length {α : Type} (k : Nat) (hk : 0 < k) :
    ∀ (n : Nat) (xs : List α), xs.length ≤ n →
      ∀ b ∈ toBatches k xs, 0 < b.length ∧ b.length ≤ k := by
  intro n
  induction n with
  | zero =>
    intro xs hxs b hb
    rw [List.eq_nil_of_length_eq_zero (Nat.le_zero.mp hxs), toBatches_nil] at hb
    exact absurd hb (List.not_mem_nil b)
  | succ m ih =>
    intro xs hxs b hb
    by_cases hnil : xs = []
    · rw [hnil, toBatches_nil] at hb
      exact absurd hb (List.not_mem_nil b)
    · rw [toBatches_cons k xs hnil (Nat.pos_iff_ne_zero.mp hk)] at hb
      rcases List.mem_cons.mp hb with rfl | hb
      · constructor
        · rw [List.length_take]
          exact lt_min hk (List.length_pos.mpr hnil)
        · rw [List.length_take]
          exact min_le_left _ _
      · refine ih (xs.drop k) ?_ b hb
        rw [List.length_drop]
        omega

lemma toBatches_flatten {α : Type} (k : Nat) (hk : 0 < k) :
    ∀ (n : Nat) (xs : List α), xs.length ≤ n → (toBatches k xs).flatten = xs := by
  intro n
  induction n with
  | zero =>
    intro xs hxs
    rw [List.eq_nil_of_length_eq_zero (Nat.le_zero.mp hxs), toBatches_nil]
    rfl
  | succ m ih =>
    intro xs hxs
    by_cases hnil : xs = []
    · rw [hnil, toBatches_nil]
      rfl
    · rw [toBatches_cons k xs hnil (Nat.pos_iff_ne_zero.mp hk), List.flatten_cons,
        ih (xs.drop k) (by rw [List.length_drop]; omega), List.take_append_drop]

lemma toBatches_dropLast {α : Type} (k : Nat) (hk : 0 < k) :
    ∀ (n : Nat) (xs : List α), xs.length ≤ n →
      ∀ b ∈ (toBatches k xs).dropLast, b.length = k := by
  intro n
  induction n with
  | zero =>
    intro xs hxs b hb
    rw [List.eq_nil_of_length_eq_zero (Nat.le_zero.mp hxs), toBatches_nil] at hb
    exact absurd hb (List.not_mem_nil b)
  | succ m ih =>
    intro xs hxs b hb
    by_cases hnil : xs = []
    · rw [hnil, toBatches_nil] at hb
      exact absurd hb (List.not_mem_nil b)
    · rw [toBatches_cons k xs hnil (Nat.pos_iff_ne_zero.mp hk)] at hb
      by_cases hrest : toBatches k (xs.drop k) = []
      · rw [hrest] at hb
        exact absurd hb (List.not_mem_nil b)
      · rw [List.dropLast_cons_of_ne_nil hrest] at hb
        rcases List.mem_cons.mp hb with rfl | hb
        · have hdrop : xs.drop k ≠ [] := by
            intro hc
            rw [hc, toBatches_nil] at hrest
            exact hrest rfl
          have hklen : k < xs.length := by
            have := List.length_pos.mpr hdrop
            rw [List.length_drop] at this
            omega
          rw [List.length_take]
          omega
        · refine ih (xs.drop k) ?_ b hb
          rw [List.length_drop]
          omega

lemma length_toBatches {α : Type} (k : Nat) (hk : 0 < k) :
    ∀ (n : Nat) (xs : List α), xs.length ≤ n →
      (toBatches k xs).length = (xs.length + k - 1) / k := by
  intro n
  induction n with
  | zero =>
    intro xs hxs
    rw [List.eq_nil_of_length_eq_zero (Nat.le_zero.mp hxs), toBatches_nil]
    simp only [List.length_nil, Nat.zero_add]
    exact (Nat.div_eq_of_lt (by omega)).symm
  | succ m ih =>
    intro xs hxs
    by_cases hnil : xs = []
    · rw [hnil, toBatches_nil]
      simp only [List.length_nil, Nat.zero_add]
      exact (Nat.div_eq_of_lt (by omega)).symm
    · have hpos : 0 < xs.length := List.length_pos.mpr hnil
      rw [toBatches_cons k xs hnil (Nat.pos_iff_ne_zero.mp hk), List.length_cons,
        ih (xs.drop k) (by rw [List.length_drop]; omega), List.length_drop]
      have hr : xs.length + k - 1 = (xs.length - 1) + k := by omega
      rw [hr, Nat.add_div_right _ hk]
      by_cases hle : xs.length ≤ k
      · have h1 : xs.length - k = 0 := by omega
        rw [h1]
        rw [Nat.div_eq_of_lt (by omega), Nat.div_eq_of_lt (by omega)]
      · have hr2 : xs.length - k + k - 1 = (xs.length - k - 1) + k := by omega
        rw [hr2, Nat.add_div_right _ hk]
        have hr3 : xs.length - 1 = (xs.length - k - 1) + k := by omega
        rw [hr3, Nat.add_div_right _ hk]

lemma sum_of_const_list (c : Nat) :
    ∀ (l : List Nat), (∀ x ∈ l, x = c) → l.sum = l.length * c := by
  intro l
  induction l with
  | nil => simp
  | cons a t ih =>
    intro h
    rw [List.sum_cons, List.length_cons, h a (List.mem_cons_self _ _),
      ih (fun x hx => h x (List.mem_cons_of_mem _ hx))]
    ring

/-- Counterexample to claim C7 as stated: over the 55000-sample training
partition with the batch size 64 of the notebook 64, not every delivered batch
contains exactly 64 samples: 55000 is not a multiple of 64, so some (namely
the last) batch is smaller. -/
theorem not_every_batch_has_64_samples :
    ¬ ∀ b ∈ toBatches trainLoaderArgs.batch_size (List.range 55000), b.length = 64 := by
  intro hall
  have hbs : trainLoaderArgs.batch_size = 64 := rfl
  rw [hbs] at hall
  have hjoin : (toBatches 64 (List.range 55000)).flatten = List.range 55000 :=
    toBatches_flatten 64 (by norm_num) (List.range 55000).length _ le_rfl
  have hlen : (toBatches 64 (List.range 55000)).flatten.length = 55000 := by
    rw [hjoin, List.length_range]
  rw [List.length_flatten] at hlen
  have hsum : ((toBatches 64 (List.range 55000)).map List.length).sum
      = ((toBatches 64 (List.range 55000)).map List.length).length * 64 := by
    refine sum_of_const_list 64 _ ?_
    intro x hx
    obtain ⟨b, hb, hbx⟩ := List.mem_map.mp hx
    rw [← hbx]
    exact hall b hb
  obtain ⟨c, hc⟩ : ∃ c, (55000 : Nat) = c * 64 := ⟨_, hlen.symm.trans hsum⟩
  omega

/-- Claim C7 as amended: every batch delivered by a dataloader with the
batch size 64 of the notebook is nonempty and contains at most 64 samples, every
batch except possibly the last contains exactly 64, and the batches cover the
dataset in order without overlap (their concatenation is the dataset). -/
theorem batches_are_64_except_last (xs : List Nat) :
    (∀ b ∈ toBatches trainLoaderArgs.batch_size xs, 0 < b.length ∧ b.length ≤ 64)
      ∧ (∀ b ∈ (toBatches trainLoaderArgs.batch_size xs).dropLast, b.length = 64)
      ∧ (toBatches trainLoaderArgs.batch_size xs).flatten = xs := by
  have hbs : trainLoaderArgs.batch_size = 64 := rfl
  rw [hbs]
  exact ⟨toBatches_mem_length 64 (by norm_num) xs.length xs le_rfl,
    toBatches_dropLast 64 (by norm_num) xs.length xs le_rfl,
    toBatches_flatten 64 (by norm_num) xs.length xs le_rfl⟩

/-! ### Bounded work during fit -/

/-- Number of optimization steps performed by fit: one per training batch per
epoch. -/
def fitOptimizationSteps (maxEpochs batchSize : Nat) (xs : List Nat) : Nat :=
  maxEpochs * (toBatches batchSize xs).length

/-- Claim C9: the trainer is constructed with max_epochs=10, an epoch over the
55000-sample training partition with batch size 64 has exactly 860 batches
(the ceiling of 55000/64), and fit therefore performs exactly
10 * 860 = 8600 optimization steps and stops. -/
theorem fit_work_is_bounded (xs : List Nat) (h : xs.length = 55000) :
    notebookTrainerArgs.max_epochs = some 10
      ∧ (toBatches trainLoaderArgs.batch_size xs).length = 860
      ∧ fitOptimizationSteps 10 trainLoaderArgs.batch_size xs = 8600
      ∧ 860 = (55000 + 64 - 1) / 64 := by
  have hbs : trainLoaderArgs.batch_size = 64 := rfl
  have hlen : (toBatches 64 xs).length = 860 := by
    rw [length_toBatches 64 (by norm_num) xs.length xs le_rfl, h]
  refine ⟨rfl, by rw [hbs]; exact hlen, ?_, by norm_num⟩
  unfold fitOptimizationSteps
  rw [hbs, hlen]

/-- Witness for C9 at a concrete list of 55000 sample indices. -/
theorem fit_work_is_bounded_witness :
    notebookTrainerArgs.max_epochs = some 10
      ∧ (toBatches trainLoaderArgs.batch_size (List.range 55000)).length = 860
      ∧ fitOptimizationSteps 10 trainLoaderArgs.batch_size (List.range 55000) = 8600
      ∧ 860 = (55000 + 64 - 1) / 64 :=
  fit_work_is_bounded (List.range 55000) (List.length_range 55000)

/-! ### Absence of seeding and its consequence -/

/-- The names imported by the first notebook cell. -/
def importedNames : List String :=
  ["os", "torch", "nn", "functional", "DataLoader", "random_split", "transforms",
   "ToTensor", "MNIST", "Accuracy", "pytorch_lightning", "Trainer", "seed_everything"]

/-- Claim C10: seed_everything is among the imported names but is never
called by any notebook statement, and the unseeded random choices matter: two
admissible draws of the random permutation give different train/validation
splits, and two dropout masks give different layer outputs, so reruns need not
agree. -/
theorem no_random_seed_fixed :
    "seed_everything" ∈ importedNames
      ∧ Stmt.callSeedEverything ∉ notebookStmts
      ∧ (∃ p1 p2 : List Nat, p1.Perm (List.range 60000) ∧ p2.Perm (List.range 60000)
          ∧ random_split p1 55000 5000 ≠ random_split p2 55000 5000)
      ∧ (∃ m1 m2 v : List ℚ, dropoutApply m1 v ≠ dropoutApply m2 v) := by
  have hdrop : dropoutApply [(1 : ℚ)] [1] ≠ dropoutApply [0] [1] := by
    have hd1 : dropoutApply [(1 : ℚ)] [1] = [(1 : ℚ)] := by
      simp [dropoutApply]
    have hd2 : dropoutApply [(0 : ℚ)] [1] = [(0 : ℚ)] := by
      simp [dropoutApply]
    rw [hd1, hd2]
    simp
  refine ⟨by simp [importedNames], by decide, ?_, [1], [0], [1], hdrop⟩
  refine ⟨List.range 60000, (List.range 60000).reverse, List.Perm.refl _,
    List.reverse_perm _, ?_⟩
  intro hcontra
  have h1 : ((List.range 60000).take 55000)[0]? = some 0 := by
    rw [List.getElem?_take, if_pos (by norm_num), List.getElem?_range (by norm_num)]
  have h2 : (((List.range 60000).reverse).take 55000)[0]? = some 59999 := by
    rw [List.getElem?_take, if_pos (by norm_num),
      List.getElem?_reverse (by simp), List.length_range]
    rw [show 60000 - 1 - 0 = 59999 from by norm_num]
    rw [List.getElem?_range (by norm_num)]
  have heq := congrArg (fun q : List Nat × List Nat => q.1[0]?) hcontra
  simp only [random_split] at heq
  rw [h1, h2] at heq
  exact Option.noConfusion heq (fun h => by omega)

end Spec2Proof
